import Mathlib

/-!
Shallow embedding of `packages/vite-plugin/src/stylesPlugin.ts` (the
`stylesPlugin` Vite plugin): the quiescence barrier (`awaitBlocking` /
`awaitResolve`), the graph probe (`getPendingModules`), the resolution state
machine (`resolveId`), the virtual module registry (`tempFiles` plus the
`load` hook) and the aggregation finalizer (the `writeStyles` / `utimes`
block inside `awaitResolve`).

JavaScript data is modelled as follows: a JS `Set` of strings is a
`List String` inserted without duplicates, a JS `Map` is an association
list with in-place overwrite, `null`/`undefined` are `Option`, a thrown
exception is `Except.error`, and the event-loop ordering needed for the
temporal claims is made explicit as a FIFO list of promise reactions.
-/

namespace StylesPlugin

/-! ### Kernel-computable string primitives

Core `String` functions such as `String.startsWith` are implemented over
byte positions and do not reduce in the kernel, so the embedding uses
structural implementations over `String.data` (`List Char`); on the ASCII
strings handled by this plugin they agree with the JS operations. -/

def listStartsWith : List Char → List Char → Bool
  | _, [] => true
  | [], _ :: _ => false
  | c :: cs, p :: ps => c = p && listStartsWith cs ps

/-- JS `s.startsWith(p)`. -/
def strStartsWith (s p : String) : Bool :=
  listStartsWith s.data p.data

/-- JS `s.endsWith(p)`. -/
def strEndsWith (s p : String) : Bool :=
  listStartsWith s.data.reverse p.data.reverse

/-- JS `s.slice(n)` for a non-negative count. -/
def strDrop (s : String) (n : Nat) : String :=
  String.mk (s.data.drop n)

/-- Drop the last `n` characters. -/
def strDropRight (s : String) (n : Nat) : String :=
  String.mk ((s.data.reverse.drop n).reverse)

/-- The longest prefix whose characters satisfy `p`. -/
def strTakeWhile (p : Char → Bool) (s : String) : String :=
  String.mk (s.data.takeWhile p)

/-- Does the string contain the character? -/
def strContainsChar (s : String) (c : Char) : Bool :=
  s.data.contains c

/-- JS `s.length` (ASCII). -/
def strLength (s : String) : Nat :=
  s.data.length

/-- Implements `String.splitOn` for a single-character separator. -/
def splitOnCharAux (c : Char) : List Char → List (List Char)
  | [] => [[]]
  | x :: xs =>
    match splitOnCharAux c xs with
    | [] => [[]]
    | cur :: rest => if x = c then [] :: cur :: rest else (x :: cur) :: rest

/-- Implements `String.intercalate "/"`. -/
def intercalateSlash : List String → String
  | [] => ""
  | [p] => p
  | p :: q :: rest => p ++ "/" ++ intercalateSlash (q :: rest)

/-! ### The style-extension regular expression

The source tests module ids against `/\w\.(s[ac]|c)ss/` (an unanchored
search). `\w` is `[A-Za-z0-9_]`, and the suffix alternatives after the dot
are `sass`, `scss` and `css`. -/

/-- JS `\w`: ASCII letters, digits and underscore. -/
def isWordChar (c : Char) : Bool :=
  ('a' ≤ c && c ≤ 'z') || ('A' ≤ c && c ≤ 'Z') || ('0' ≤ c && c ≤ '9') || c = '_'

/-- Does `/\w\.(s[ac]|c)ss/` match starting at the head of this character
list? -/
def styleExtAt : List Char → Bool
  | w :: '.' :: rest =>
    isWordChar w &&
      (match rest with
       | 's' :: 'a' :: 's' :: 's' :: _ => true
       | 's' :: 'c' :: 's' :: 's' :: _ => true
       | 'c' :: 's' :: 's' :: _ => true
       | _ => false)
  | _ => false

/-- Unanchored search: does the pattern match at any position? -/
def styleRegexTestAux : List Char → Bool
  | [] => false
  | c :: rest => styleExtAt (c :: rest) || styleRegexTestAux rest

/-- Models `/\w\.(s[ac]|c)ss/.test id` from the source. -/
def styleRegexTest (id : String) : Bool :=
  styleRegexTestAux id.data

/-! ### Graph probe, build mode (`getPendingModules`, `!server` branch)

The source yields once (`await new Promise(resolve => setTimeout(resolve, 0))`),
lists `context.getModuleIds()`, filters out ids in `blockingModules` and ids
matching the style regexp, maps each survivor through
`context.getModuleInfo` and drops modules whose `code` is non-null, then
either returns `0` immediately (issuing no load) or issues `context.load`
for every survivor and returns `promises.length` once `Promise.race`
settles. We model a module id together with its `getModuleInfo` record as
one `RollupModule`, and record the issued loads explicitly. -/

structure RollupModule where
  id : String
  code : Option String
deriving DecidableEq

structure ProbeResult where
  pendingModules : List String
  /-- The modules for which a forced `context.load` was issued. -/
  loads : List String
  /-- The value returned to `awaitBlocking`. -/
  count : Nat
deriving DecidableEq

/-- The `!server` (build mode) branch of `getPendingModules`. -/
def getPendingModulesBuild (blockingModules : List String)
    (graphModules : List RollupModule) : ProbeResult :=
  let surviving :=
    (graphModules.filter
        (fun m => !(blockingModules.contains m.id) && !(styleRegexTest m.id))).filter
      (fun m => m.code.isNone)
  let pendingModules := surviving.map (fun m => m.id)
  if pendingModules.isEmpty then
    { pendingModules := pendingModules, loads := [], count := 0 }
  else
    { pendingModules := pendingModules
      loads := surviving.map (fun m => m.id)
      count := surviving.length }

/-! ### The fragment registry (`files` / `needsTouch`)

`resolveId` in `expose` mode runs
`if (!files.has(resolution.id)) { needsTouch = true; files.add(resolution.id) }`;
this is the `registerFragment` operation of the design. -/

/-- Add a path to the fragment set, flagging `needsTouch` only for a
genuinely new addition. Returns the new `(files, needsTouch)` pair. -/
def registerFragment (files : List String) (needsTouch : Bool)
    (p : String) : List String × Bool :=
  if files.contains p then (files, needsTouch)
  else (p :: files, true)

/-! ### The barrier's driving loop (`awaitBlocking`)

The loop re-arms a watchdog each round, races the shared promise against
one probe round, loops while the race result is truthy, and calls
`resolve(false)` when it exits; the watchdog callback also calls
`resolve(false)`. We model one run by the sequence of probe counts the
rounds produced; an exhausted list stands for the watchdog firing before
another probe round completed. -/

inductive SettleCause where
  | quiescent
  | watchdog
deriving DecidableEq

/-- The terminal cause of a cycle and the value the shared promise is
resolved with (`Except` so that a rejection would be observable: neither
path rejects, both run `resolve(false)`). -/
def awaitBlockingRun : List Nat → SettleCause × Except String Bool
  | [] => (SettleCause.watchdog, Except.ok false)
  | n :: rest =>
    if n ≠ 0 then awaitBlockingRun rest
    else (SettleCause.quiescent, Except.ok false)

/-! ### Path helpers (`upath` / posix semantics)

The source uses `path.relative`, `path.join`, `path.isAbsolute` from
`upath` (posix-normalised paths). We model them for normalised paths:
split on `/`, drop the common prefix, prepend one `..` per remaining
component of the base. -/

def splitPath (s : String) : List String :=
  ((splitOnCharAux '/' s.data).map String.mk).filter (fun seg => seg ≠ "")

def relativeSegs : List String → List String → List String
  | f :: fs, t :: ts =>
    if f = t then relativeSegs fs ts
    else (f :: fs).map (fun _ => "..") ++ t :: ts
  | [], ts => ts
  | fs, [] => fs.map (fun _ => "..")

/-- Models `path.relative from to` for normalised absolute paths. -/
def pathRelative (base target : String) : String :=
  intercalateSlash (relativeSegs (splitPath base) (splitPath target))

/-- Models `path.join a b` for a simple trailing segment. -/
def pathJoin (a b : String) : String := a ++ "/" ++ b

/-- Models `path.isAbsolute` (posix). -/
def pathIsAbsolute (s : String) : Bool := strStartsWith s "/"

/-- Models `isSubdir` from the source: the relative path is truthy (non-empty),
does not start with `..`, and is not absolute. -/
def isSubdir (root test : String) : Bool :=
  let relative := pathRelative root test
  relative ≠ "" && !(strStartsWith relative "..") && !(pathIsAbsolute relative)

/-- Models `source.replace(/\.css$/, '.sass')`: the regexp is anchored at the end,
so only a trailing `.css` is rewritten. -/
def replaceCssSass (s : String) : String :=
  if strEndsWith s ".css" then strDropRight s 4 ++ ".sass" else s

/-! ### The virtual registry (`tempFiles`) and generated contents -/

/-- JS `Map.set`: overwrite an existing key in place, else append. -/
def mapSet (m : List (String × String)) (k v : String) :
    List (String × String) :=
  if m.any (fun kv => kv.1 = k) then
    m.map (fun kv => if kv.1 = k then (k, v) else kv)
  else m ++ [(k, v)]

/-- JS `Map.get` (`undefined` as `none`). -/
def mapGet (m : List (String × String)) (k : String) : Option String :=
  (m.find? (fun kv => kv.1 = k)).map (fun kv => kv.2)

/-- JS template-literal interpolation of a possibly-`undefined` value. -/
def interp : Option String → String
  | some s => s
  | none => "undefined"

/-- JS truthiness of `boolean | undefined`. -/
def truthy : Option Bool → Bool
  | some b => b
  | none => false

/-- Models `scssFileContents(useLayers, configFile, target)` from the source,
byte-for-byte (including the unmatched quote after `configFile` in the
layered branch; `\x7b`/`\x7d` are the literal braces). -/
def scssFileContents (useLayers : Option Bool) (configFile : Option String)
    (target : String) : String :=
  if truthy useLayers then
    "@use 'sass:meta';\n @use \"" ++ interp configFile ++
      ";\n @layer framework \x7b\n @include meta.load-css(\"" ++ target ++
      "\");\n \x7d\n"
  else
    "@use \"" ++ interp configFile ++ "\"\n@use \"" ++ target ++ "\""

/-! ### The settle cycle (`promise`, `blockingModules`, `awaitResolve`)

`awaitResolve(id?)` adds `id` to `blockingModules`, and if no shared
promise exists it creates one, spawns the driving loop (`awaitBlocking()`,
not awaited) and awaits the promise itself; otherwise it returns the
existing promise. Because the creator reaches its `await promise`
synchronously (the spawned loop suspends at its first `await` before
`awaitResolve` continues), the creator's continuation is attached to the
shared promise before any later caller's, so when `resolve(false)` fires
the reactions run FIFO: first the creator's continuation — which clears
the watchdog, clears `blockingModules` and issues `writeStyles(files)`
before suspending on it — then each joiner's resumption.

We model the promise by a generation number `gen`, the spawned loops by a
counter, and the attached reactions by a FIFO list of event lists. -/

inductive Ev where
  | clearWatchdog
  | clearBlocking
  /-- The finalizer's `writeStyles(files)` call is issued. -/
  | issueWrite
  /-- Caller number `n` resumes past its `await`. -/
  | resume (n : Nat)
deriving DecidableEq

structure CycleState where
  /-- Is `promise` currently non-null? -/
  promiseActive : Bool
  /-- Identity of the current shared promise (bumped at each creation). -/
  gen : Nat
  /-- How many driving loops (`awaitBlocking()`) were ever spawned. -/
  loops : Nat
  /-- Models `blockingModules`. -/
  blocking : List String
  /-- Reactions attached to the current shared promise, in attach order. -/
  reactions : List (List Ev)
deriving DecidableEq

def initCycle : CycleState :=
  { promiseActive := false, gen := 0, loops := 0, blocking := [], reactions := [] }

/-- The events the cycle creator's continuation performs when the shared
promise resolves, in source order: `clearTimeout(timeout)`,
`blockingModules.clear()`, `await writeStyles(files)`, and — once the
write and the touch block complete — the creator's own caller resumes. -/
def creatorContinuation (caller : Nat) : List Ev :=
  [Ev.clearWatchdog, Ev.clearBlocking, Ev.issueWrite, Ev.resume caller]

/-- One call `awaitResolve(id?)` by caller number `caller`. Returns the new
cycle state and the generation of the promise the caller ends up awaiting. -/
def awaitResolveStep (caller : Nat) (id : Option String) (s : CycleState) :
    CycleState × Nat :=
  let s' :=
    match id with
    | some i =>
      { s with blocking := if s.blocking.contains i then s.blocking else i :: s.blocking }
    | none => s
  if s'.promiseActive then
    ({ s' with reactions := s'.reactions ++ [[Ev.resume caller]] }, s'.gen)
  else
    ({ s' with
        promiseActive := true
        gen := s'.gen + 1
        loops := s'.loops + 1
        reactions := s'.reactions ++ [creatorContinuation caller] }, s'.gen + 1)

/-- A sequence of `awaitResolve` calls, callers numbered from `n`. -/
def runCallsFrom (n : Nat) : List (Option String) → CycleState → CycleState
  | [], s => s
  | c :: rest, s => runCallsFrom (n + 1) rest (awaitResolveStep n c s).1

def runCalls (calls : List (Option String)) (s : CycleState) : CycleState :=
  runCallsFrom 0 calls s

/-- When `resolve(false)` fires, the attached reactions run in FIFO order and
the events they perform are concatenated into one trace. -/
def releaseTrace (s : CycleState) : List Ev :=
  s.reactions.flatten

/-! ### The resolution state machine (`resolveId`)

`options.styles` is `true | 'none' | 'sass' | 'expose' | { configFile }`;
the hook branches on `'none'`, `'sass'`, `'expose'` and `typeof ... ===
'object'`, so we model the four dispatching variants. `this.resolve` is an
external collaborator, supplied as an oracle `resolveFn` from the resolved
specifier to the resolution id (or `null`). -/

inductive StylesMode where
  /-- Case `options.styles === 'none'`. -/
  | suppressed
  /-- Case `options.styles === 'sass'`. -/
  | passthrough
  /-- Case `options.styles === 'expose'`. -/
  | aggregated
  /-- Case `typeof options.styles === 'object'`. -/
  | configured
deriving DecidableEq

/-- Observable collaborator calls made by a `resolveId` invocation. -/
inductive ResolveEffect where
  /-- The fire-and-forget `awaitResolve()` call. -/
  | requestSettle
  /-- The `files`/`needsTouch` update for a successfully resolved fragment. -/
  | registerFragment (p : String)
deriving DecidableEq

/-- The sentinel suppressed id `'\0__void__'`. -/
def voidId : String := "\x00__void__"

/-- The virtual namespace prefix used by generated ids. -/
def pluginVirtual : String := "\x00plugin-vuetify:"

/-- The guard of the main branch: `source === 'vuetify/styles' || (importer
&& source.endsWith('.css') && isSubdir(vuetifyBase, path.isAbsolute(source)
? source : importer))`. -/
def matchesStyleEntry (vuetifyBase source : String)
    (importer : Option String) : Bool :=
  source = "vuetify/styles" ||
    (importer.isSome && strEndsWith source ".css" &&
      isSubdir vuetifyBase
        (if pathIsAbsolute source then source else importer.getD ""))

structure PluginState where
  files : List String
  needsTouch : Bool
  tempFiles : List (String × String)
  cycle : CycleState
deriving DecidableEq

structure ResolveOutcome where
  effects : List ResolveEffect
  state : PluginState
  result : Option String
deriving DecidableEq

/-- The `resolveId` hook. `caller` numbers this invocation for the cycle
model; `resolveFn` stands for `this.resolve` (with `skipSelf`). -/
def resolveIdHook (mode : StylesMode) (useLayers : Option Bool)
    (configFile : Option String) (vuetifyBase : String)
    (resolveFn : String → Option String) (caller : Nat)
    (source : String) (importer : Option String) (st : PluginState) :
    ResolveOutcome :=
  if matchesStyleEntry vuetifyBase source importer then
    match mode with
    | StylesMode.suppressed =>
      { effects := [], state := st, result := some voidId }
    | StylesMode.passthrough =>
      { effects := [], state := st, result := resolveFn (replaceCssSass source) }
    | StylesMode.aggregated =>
      let st1 := { st with cycle := (awaitResolveStep caller none st.cycle).1 }
      match resolveFn (replaceCssSass source) with
      | some rid =>
        let fr := registerFragment st1.files st1.needsTouch rid
        { effects := [ResolveEffect.requestSettle, ResolveEffect.registerFragment rid]
          state := { st1 with files := fr.1, needsTouch := fr.2 }
          result := some voidId }
      | none =>
        { effects := [ResolveEffect.requestSettle], state := st1, result := none }
    | StylesMode.configured =>
      match resolveFn source with
      | none => { effects := [], state := st, result := none }
      | some rid =>
        let target := replaceCssSass rid
        let file := pathRelative (pathJoin vuetifyBase "lib") target
        let contents := scssFileContents useLayers configFile target
        { effects := []
          state := { st with tempFiles := mapSet st.tempFiles file contents }
          result := some (pluginVirtual ++ file) }
  else if strStartsWith source "/plugin-vuetify:" then
    { effects := [], state := st, result := some ("\x00" ++ strDrop source 1) }
  else if strStartsWith source "/@id/__x00__plugin-vuetify:" then
    { effects := [], state := st, result := some ("\x00" ++ strDrop source 12) }
  else
    { effects := [], state := st, result := none }

/-! ### The aggregation finalizer's touch block

Inside `awaitResolve`, after `await writeStyles(files)`:
`if (server && needsTouch) { ...getModulesByFile(cacheFile)?.forEach(m =>
m.importers.forEach(i => if (i.file) utimes(i.file, now, now))); needsTouch
= false }`. We model the graph lookup result as the list of modules whose
file is the aggregated artifact, each with its importers. -/

structure ImporterRecord where
  file : Option String
deriving DecidableEq

/-- Returns the files whose mtime is touched and the new `needsTouch`. -/
def finalizerTouch (serverPresent : Bool) (needsTouch : Bool)
    (modulesByCacheFile : List (List ImporterRecord)) :
    List String × Bool :=
  if serverPresent && needsTouch then
    ((modulesByCacheFile.map
        (fun importers => importers.filterMap (fun i => i.file))).flatten,
      false)
  else ([], needsTouch)

/-! ### The `load` hook

`/^\0__void__(\?.*)?$/` tests the sentinel (optionally query-decorated);
`id.startsWith('\0plugin-vuetify')` (no colon) guards the virtual branch,
whose key is extracted by `/^\0plugin-vuetify:(.*?)(\?.*)?$/.exec(id)![1]`
— the non-null assertion throws when the regexp does not match (e.g. the
colon is missing, or the id contains a line terminator, which `.` never
matches). A throw is modelled as `Except.error ()`.

Both regexps are anchored (`^`/`$`, no `m` flag, so `$` asserts the very
end of the input) and use `.`, which in ECMAScript without the `s` flag
matches any character except the four line terminators LF (U+000A),
CR (U+000D), LINE SEPARATOR (U+2028) and PARAGRAPH SEPARATOR (U+2029). -/

/-- ECMAScript line terminators: the characters `.` can never match. -/
def isLineTerminator (c : Char) : Bool :=
  c = '\n' || c = '\r' || c = '\u2028' || c = '\u2029'

/-- Does the string contain an ECMAScript line terminator? -/
def containsLineTerminator (s : String) : Bool :=
  s.data.any isLineTerminator

/-- Models `/^\0__void__(\?.*)?$/.test(id)`: the whole input is either
exactly the sentinel, or the sentinel followed by `?` and a tail that `.*`
can match — i.e. one free of line terminators. -/
def voidRegexTest (id : String) : Bool :=
  id = voidId ||
    (strStartsWith id (voidId ++ "?") &&
      !(containsLineTerminator (strDrop id (strLength (voidId ++ "?")))))

/-- Models `/^\0plugin-vuetify:(.*?)(\?.*)?$/.exec(id)` — `some` capture 1
on a match, `none` when the regexp fails. The match succeeds exactly when
the prefix is present and the remainder is free of line terminators (it
must be split into `.*?`, an optional literal `?` and `.*`, none of which
can consume one); the lazy group stops at the first `?`. -/
def execPluginVirtual (id : String) : Option String :=
  if strStartsWith id pluginVirtual &&
      !(containsLineTerminator (strDrop id (strLength pluginVirtual))) then
    some (strTakeWhile (fun c => c ≠ '?') (strDrop id (strLength pluginVirtual)))
  else none

/-- The `load` hook over the registry `tempFiles`. -/
def loadHook (tempFiles : List (String × String)) (id : String) :
    Except Unit (Option String) :=
  if voidRegexTest id then Except.ok (some "")
  else if strStartsWith id "\x00plugin-vuetify" then
    match execPluginVirtual id with
    | some file => Except.ok (mapGet tempFiles file)
    | none => Except.error ()
  else Except.ok none

/-! ## Theorems -/

/-- Claim C5: the barrier's completion signal is always resolved with the
value `false` and never rejects — both the watchdog-timeout path and the
zero-pending quiescence path run `resolve(false)`, so no caller of
`requestSettle` can distinguish timer-forced settlement from true
quiescence and no exception reaches the caller. -/
theorem awaitBlocking_resolves_false (rounds : List Nat) :
    (awaitBlockingRun rounds).2 = Except.ok false := by
  induction rounds with
  | nil => rfl
  | cons n rest ih =>
    by_cases h : n = 0
    · simp [awaitBlockingRun, h]
    · simpa [awaitBlockingRun, h] using ih

/-- Claim C6: `registerFragment` is idempotent — registering the same path
a second time leaves the fragment set (hence its size) unchanged, a path
already present leaves both the set and the `needsTouch` flag untouched,
and only a genuinely new addition sets the flag. -/
theorem registerFragment_idempotent (files : List String) (nt : Bool)
    (p : String) :
    registerFragment (registerFragment files nt p).1
        (registerFragment files nt p).2 p = registerFragment files nt p ∧
    (registerFragment (registerFragment files nt p).1
        (registerFragment files nt p).2 p).1.length =
      (registerFragment files nt p).1.length ∧
    (files.contains p = true → registerFragment files nt p = (files, nt)) ∧
    (files.contains p = false → (registerFragment files nt p).2 = true) := by
  by_cases hm : p ∈ files
  · have h1 : registerFragment files nt p = (files, nt) := by
      simp [registerFragment, hm]
    refine ⟨by rw [h1]; exact h1, by rw [h1]; rw [h1], fun _ => h1, fun hc => ?_⟩
    exact absurd hm (by simpa using hc)
  · have h1 : registerFragment files nt p = (p :: files, true) := by
      simp [registerFragment, hm]
    have h2 : registerFragment (p :: files) true p = (p :: files, true) := by
      simp [registerFragment]
    refine ⟨by rw [h1]; exact h2, by rw [h1]; rw [h2], fun hc => ?_, fun _ => by rw [h1]⟩
    exact absurd (by simpa using hc) hm

/-- Witness for C6 at concrete inputs: re-registering `"a"` over `["a"]`
changes nothing, and registering the new path `"b"` sets the flag. -/
theorem registerFragment_idempotent_witness :
    registerFragment ["a"] false "a" = (["a"], false) ∧
    (registerFragment ["a"] false "b").2 = true :=
  ⟨(registerFragment_idempotent ["a"] false "a").2.2.1 (by decide),
   (registerFragment_idempotent ["a"] false "b").2.2.2 (by decide)⟩

/-- Claim C3: the build-mode graph probe keeps exactly the modules whose id
is neither in `blockingModules` nor matches the style-extension regexp and
which carry no loaded code yet; it issues no load and returns `0` when no
module survives, and otherwise issues a forced load for every survivor and
returns their number (the value handed back once `Promise.race` settles). -/
theorem getPendingModulesBuild_spec (blockingModules : List String)
    (graphModules : List RollupModule) :
    (getPendingModulesBuild blockingModules graphModules).count =
      (graphModules.filter (fun m =>
        !(blockingModules.contains m.id) && !(styleRegexTest m.id) &&
          m.code.isNone)).length ∧
    (getPendingModulesBuild blockingModules graphModules).loads =
      (graphModules.filter (fun m =>
        !(blockingModules.contains m.id) && !(styleRegexTest m.id) &&
          m.code.isNone)).map (fun m => m.id) ∧
    (graphModules.filter (fun m =>
        !(blockingModules.contains m.id) && !(styleRegexTest m.id) &&
          m.code.isNone) = [] →
      (getPendingModulesBuild blockingModules graphModules).loads = [] ∧
      (getPendingModulesBuild blockingModules graphModules).count = 0) := by
  have hf : (graphModules.filter (fun m =>
      !(blockingModules.contains m.id) && !(styleRegexTest m.id))).filter
        (fun m => m.code.isNone) =
      graphModules.filter (fun m =>
        !(blockingModules.contains m.id) && !(styleRegexTest m.id) &&
          m.code.isNone) := by
    rw [List.filter_filter]
    apply List.filter_congr
    intro a _
    cases h1 : blockingModules.contains a.id <;> cases h2 : styleRegexTest a.id <;>
      cases h3 : a.code.isNone <;> simp [h1, h2, h3]
  have hg : getPendingModulesBuild blockingModules graphModules =
      if (((graphModules.filter (fun m =>
          !(blockingModules.contains m.id) && !(styleRegexTest m.id))).filter
            (fun m => m.code.isNone)).map (fun m => m.id)).isEmpty then
        { pendingModules := ((graphModules.filter (fun m =>
            !(blockingModules.contains m.id) && !(styleRegexTest m.id))).filter
              (fun m => m.code.isNone)).map (fun m => m.id)
          loads := []
          count := 0 }
      else
        { pendingModules := ((graphModules.filter (fun m =>
            !(blockingModules.contains m.id) && !(styleRegexTest m.id))).filter
              (fun m => m.code.isNone)).map (fun m => m.id)
          loads := ((graphModules.filter (fun m =>
            !(blockingModules.contains m.id) && !(styleRegexTest m.id))).filter
              (fun m => m.code.isNone)).map (fun m => m.id)
          count := ((graphModules.filter (fun m =>
            !(blockingModules.contains m.id) && !(styleRegexTest m.id))).filter
              (fun m => m.code.isNone)).length } := rfl
  rw [hf] at hg
  by_cases h : graphModules.filter (fun m =>
      !(blockingModules.contains m.id) && !(styleRegexTest m.id) &&
        m.code.isNone) = []
  · rw [hg, h]
    refine ⟨by simp, by simp, fun _ => by simp⟩
  · have hne : ¬ (((graphModules.filter (fun m =>
        !(blockingModules.contains m.id) && !(styleRegexTest m.id) &&
          m.code.isNone)).map (fun m => m.id)).isEmpty = true) := by
      intro hemp
      exact h (List.map_eq_nil_iff.mp (List.isEmpty_iff.mp hemp))
    rw [hg, if_neg hne]
    exact ⟨rfl, rfl, fun hh => absurd hh h⟩

/-- Witness for C3: with `"blk"` blocking, a graph of the blocking module,
a stylesheet and an already-loaded module has no survivor, so no load is
issued and the probe returns `0`. -/
theorem getPendingModulesBuild_spec_witness :
    (getPendingModulesBuild ["blk"]
      [RollupModule.mk "blk" none, RollupModule.mk "a.css" none,
       RollupModule.mk "m" (some "code")]).loads = [] ∧
    (getPendingModulesBuild ["blk"]
      [RollupModule.mk "blk" none, RollupModule.mk "a.css" none,
       RollupModule.mk "m" (some "code")]).count = 0 :=
  (getPendingModulesBuild_spec ["blk"]
    [RollupModule.mk "blk" none, RollupModule.mk "a.css" none,
     RollupModule.mk "m" (some "code")]).2.2 (by decide)

/-- Claim C9: in dev-server mode the finalizer touches exactly the files of
the importers of the aggregated artifact when `needsTouch` is set (and then
resets the flag), and touches nothing — leaving the flag clear — in a
cycle during which no new fragment was registered. -/
theorem finalizerTouch_spec (mods : List (List ImporterRecord)) :
    (∀ f : String, f ∈ (finalizerTouch true true mods).1 ↔
        ∃ importers, importers ∈ mods ∧
          ImporterRecord.mk (some f) ∈ importers) ∧
    (finalizerTouch true true mods).2 = false ∧
    finalizerTouch true false mods = ([], false) := by
  have hmem : ∀ (f : String) (importers : List ImporterRecord),
      f ∈ importers.filterMap (fun i => i.file) ↔
        ImporterRecord.mk (some f) ∈ importers := by
    intro f importers
    induction importers with
    | nil => simp
    | cons i rest ih =>
      cases i with
      | mk file =>
        cases file with
        | none => simp [List.filterMap_cons, ih]
        | some g => by_cases hg : g = f <;> simp [List.filterMap_cons, hg, ih]
  refine ⟨fun f => ?_, by simp [finalizerTouch], by simp [finalizerTouch]⟩
  constructor
  · intro hf
    have hflat : f ∈ (mods.map
        (fun importers => importers.filterMap (fun i => i.file))).flatten := by
      simpa [finalizerTouch] using hf
    rcases List.mem_flatten.mp hflat with ⟨l, hl, hfl⟩
    rcases List.mem_map.mp hl with ⟨importers, hmods, rfl⟩
    exact ⟨importers, hmods, (hmem f importers).mp hfl⟩
  · rintro ⟨importers, hmods, hi⟩
    have hflat : f ∈ (mods.map
        (fun importers => importers.filterMap (fun i => i.file))).flatten :=
      List.mem_flatten.mpr ⟨importers.filterMap (fun i => i.file),
        List.mem_map.mpr ⟨importers, hmods, rfl⟩, (hmem f importers).mpr hi⟩
    simpa [finalizerTouch] using hflat

/-- Overwriting a key that no entry of the map carries maps every entry to
itself. -/
theorem mapSetUpdate_of_absent (m : List (String × String)) (k v : String)
    (h : m.any (fun kv => kv.1 = k) = false) :
    m.map (fun kv => if kv.1 = k then (k, v) else kv) = m := by
  induction m with
  | nil => rfl
  | cons kv rest ih =>
    simp only [List.any_cons, Bool.or_eq_false_iff] at h
    have hk : ¬(kv.1 = k) := by simpa using h.1
    simp [hk, ih h.2]

/-- JS `Map.set` is idempotent for a fixed key and value: the second `set`
leaves the map unchanged. -/
theorem mapSet_idem (m : List (String × String)) (k v : String) :
    mapSet (mapSet m k v) k v = mapSet m k v := by
  by_cases h : m.any (fun kv => kv.1 = k) = true
  · have e1 : mapSet m k v = m.map (fun kv => if kv.1 = k then (k, v) else kv) := by
      simp only [mapSet, if_pos h]
    have e2 : (m.map (fun kv => if kv.1 = k then (k, v) else kv)).any
        (fun kv => kv.1 = k) = true := by
      rcases List.any_eq_true.mp h with ⟨kv, hmem, hk⟩
      refine List.any_eq_true.mpr ⟨(k, v), List.mem_map.mpr ⟨kv, hmem, ?_⟩, by simp⟩
      simp [of_decide_eq_true hk]
    have e3 : (m.map (fun kv => if kv.1 = k then (k, v) else kv)).map
        (fun kv => if kv.1 = k then (k, v) else kv) =
        m.map (fun kv => if kv.1 = k then (k, v) else kv) := by
      rw [List.map_map]
      apply List.map_congr_left
      intro kv _
      by_cases hk : kv.1 = k <;> simp [hk]
    rw [e1, mapSet, if_pos e2, e3]
  · have h' : m.any (fun kv => kv.1 = k) = false := by
      cases hq : m.any (fun kv => kv.1 = k)
      · rfl
      · exact absurd hq h
    have e1 : mapSet m k v = m ++ [(k, v)] := by
      simp only [mapSet, h']
      rfl
    have e2 : (m ++ [(k, v)]).any (fun kv => kv.1 = k) = true := by
      refine List.any_eq_true.mpr ⟨(k, v), ?_, by simp⟩
      simp
    rw [e1, mapSet, if_pos e2, List.map_append, mapSetUpdate_of_absent m k v h']
    simp

/-- The slot written by `mapSet` is readable back under the same key. -/
theorem mapGet_mapSet (m : List (String × String)) (k v : String) :
    mapGet (mapSet m k v) k = some v := by
  induction m with
  | nil =>
    simp [mapSet, mapGet]
  | cons kv rest ih =>
    by_cases hk : kv.1 = k
    · have hany : (kv :: rest).any (fun kv => kv.1 = k) = true := by
        simp [List.any_cons, hk]
      rw [mapSet, if_pos hany]
      simp [mapGet, hk]
    · have hskip : ∀ L : List (String × String), mapGet (kv :: L) k = mapGet L k := by
        intro L
        simp [mapGet, List.find?, hk]
      have hcons : (kv :: rest).any (fun kv => kv.1 = k) =
          rest.any (fun kv => kv.1 = k) := by
        simp [List.any_cons, hk]
      by_cases hr : rest.any (fun kv => kv.1 = k) = true
      · have e : mapSet rest k v =
            rest.map (fun kv => if kv.1 = k then (k, v) else kv) := by
          simp only [mapSet, if_pos hr]
        rw [mapSet, hcons, if_pos hr, List.map_cons, if_neg hk, hskip, ← e]
        exact ih
      · have hr' : rest.any (fun kv => kv.1 = k) = false := by
          cases hq : rest.any (fun kv => kv.1 = k)
          · rfl
          · exact absurd hq hr
        have e : mapSet rest k v = rest ++ [(k, v)] := by
          simp only [mapSet, hr']
          rfl
        rw [mapSet, hcons, if_neg (by simp [hr']), List.cons_append, hskip, ← e]
        exact ih

/-- Claim C7: in configured mode the virtual key is a deterministic
function of the delegated resolution (the resolved real file path made
relative to `join(vuetifyBase, 'lib')` after the `.css` → `.sass`
rewrite): resolving the same request twice yields the identical result —
hence the identical virtual key — and the second resolution leaves the
registry exactly as the first left it, occupying the same slot instead of
adding one. -/
theorem resolveId_configured_deterministic (ul : Option Bool)
    (cfg : Option String) (base : String) (resolveFn : String → Option String)
    (caller caller' : Nat) (source : String) (importer : Option String)
    (st : PluginState) :
    (resolveIdHook StylesMode.configured ul cfg base resolveFn caller' source importer
        (resolveIdHook StylesMode.configured ul cfg base resolveFn caller source importer
          st).state).result =
      (resolveIdHook StylesMode.configured ul cfg base resolveFn caller source importer
        st).result ∧
    (resolveIdHook StylesMode.configured ul cfg base resolveFn caller' source importer
        (resolveIdHook StylesMode.configured ul cfg base resolveFn caller source importer
          st).state).state.tempFiles =
      (resolveIdHook StylesMode.configured ul cfg base resolveFn caller source importer
        st).state.tempFiles := by
  by_cases hm : matchesStyleEntry base source importer = true
  · cases hres : resolveFn source with
    | none => simp [resolveIdHook, hm, hres]
    | some rid => simp [resolveIdHook, hm, hres, mapSet_idem]
  · have hm' : matchesStyleEntry base source importer = false := by
      cases hq : matchesStyleEntry base source importer
      · rfl
      · exact absurd hq hm
    by_cases h1 : strStartsWith source "/plugin-vuetify:" = true
    · simp [resolveIdHook, hm', h1]
    · by_cases h2 : strStartsWith source "/@id/__x00__plugin-vuetify:" = true
      · simp [resolveIdHook, hm', h1, h2]
      · simp [resolveIdHook, hm', h1, h2]

/-- Counterexample to claim C8 as stated: resolving `foo.css` under the
aggregated root yields the virtual key `foo.sass` (the relative path of
the `.sass` counterpart), not `foo`. -/
theorem resolveId_configured_key_cex :
    (resolveIdHook StylesMode.configured none (some "/proj/settings.scss")
        "/node_modules/vuetify" (fun s => some s) 0
        "/node_modules/vuetify/lib/foo.css" (some "/app/main.ts")
        { files := [], needsTouch := false, tempFiles := [], cycle := initCycle }).result ≠
      some (pluginVirtual ++ "foo") := by decide

/-- Claim C8 as amended: in configured mode with layering disabled,
resolving `foo.css` under the aggregated root yields the virtual key
`foo.sass`, and the registered document contains the configuration `@use`
followed — in this order — by the `@use` of the resolved source file. -/
theorem resolveId_configured_scenario (cfg : String)
    (tf : List (String × String)) :
    (resolveIdHook StylesMode.configured none (some cfg) "/node_modules/vuetify"
        (fun s => some s) 0 "/node_modules/vuetify/lib/foo.css"
        (some "/app/main.ts")
        { files := [], needsTouch := false, tempFiles := tf,
          cycle := initCycle }).result = some (pluginVirtual ++ "foo.sass") ∧
    mapGet (resolveIdHook StylesMode.configured none (some cfg) "/node_modules/vuetify"
        (fun s => some s) 0 "/node_modules/vuetify/lib/foo.css"
        (some "/app/main.ts")
        { files := [], needsTouch := false, tempFiles := tf,
          cycle := initCycle }).state.tempFiles "foo.sass" =
      some (scssFileContents none (some cfg) "/node_modules/vuetify/lib/foo.sass") ∧
    scssFileContents none (some cfg) "/node_modules/vuetify/lib/foo.sass" =
      "@use \"" ++ cfg ++ "\"\n@use \"" ++ "/node_modules/vuetify/lib/foo.sass" ++ "\"" := by
  refine ⟨rfl, ?_, rfl⟩
  show mapGet (mapSet tf "foo.sass"
    (scssFileContents none (some cfg) "/node_modules/vuetify/lib/foo.sass")) "foo.sass" = _
  exact mapGet_mapSet tf "foo.sass" _

/-- Counterexample to claim C4 as stated: in aggregated mode, when the
delegated resolution returns `null`, `resolveId` does not resolve to the
sentinel suppressed id — it falls through to the final `return null`. -/
theorem resolveId_aggregated_null_cex :
    (resolveIdHook StylesMode.aggregated none none "/v" (fun _ => none) 0
        "vuetify/styles" none
        { files := [], needsTouch := false, tempFiles := [],
          cycle := initCycle }).result = none ∧
    (resolveIdHook StylesMode.aggregated none none "/v" (fun _ => none) 0
        "vuetify/styles" none
        { files := [], needsTouch := false, tempFiles := [],
          cycle := initCycle }).result ≠ some voidId := by
  refine ⟨rfl, ?_⟩
  intro hcontra
  exact Option.noConfusion (rfl.trans hcontra : (none : Option String) = some voidId)

/-- Claim C4 as amended: in aggregated mode, for a request matching the
style-entry pattern, `resolveId` first fires `requestSettle` without
awaiting it (the cycle join happens regardless of the outcome), calls
`registerFragment` exactly when the delegated resolution succeeds and then
resolves to the sentinel suppressed id; when the delegated resolution
returns `null` it returns `null` (no resolution). -/
theorem resolveId_aggregated_spec (ul : Option Bool) (cfg : Option String)
    (base : String) (resolveFn : String → Option String) (caller : Nat)
    (source : String) (importer : Option String) (st : PluginState)
    (h : matchesStyleEntry base source importer = true) :
    (resolveIdHook StylesMode.aggregated ul cfg base resolveFn caller source
        importer st).effects.head? = some ResolveEffect.requestSettle ∧
    (resolveIdHook StylesMode.aggregated ul cfg base resolveFn caller source
        importer st).state.cycle = (awaitResolveStep caller none st.cycle).1 ∧
    (∀ rid, resolveFn (replaceCssSass source) = some rid →
      (resolveIdHook StylesMode.aggregated ul cfg base resolveFn caller source
          importer st).result = some voidId ∧
      (resolveIdHook StylesMode.aggregated ul cfg base resolveFn caller source
          importer st).effects =
        [ResolveEffect.requestSettle, ResolveEffect.registerFragment rid] ∧
      ((resolveIdHook StylesMode.aggregated ul cfg base resolveFn caller source
          importer st).state.files,
       (resolveIdHook StylesMode.aggregated ul cfg base resolveFn caller source
          importer st).state.needsTouch) =
        registerFragment st.files st.needsTouch rid) ∧
    (resolveFn (replaceCssSass source) = none →
      (resolveIdHook StylesMode.aggregated ul cfg base resolveFn caller source
          importer st).result = none ∧
      (resolveIdHook StylesMode.aggregated ul cfg base resolveFn caller source
          importer st).effects = [ResolveEffect.requestSettle]) := by
  cases hres : resolveFn (replaceCssSass source) with
  | none =>
    refine ⟨by simp [resolveIdHook, h, hres], by simp [resolveIdHook, h, hres],
      ?_, fun _ => ⟨by simp [resolveIdHook, h, hres], by simp [resolveIdHook, h, hres]⟩⟩
    intro rid hrid
    exact Option.noConfusion hrid
  | some rid₀ =>
    refine ⟨by simp [resolveIdHook, h, hres], by simp [resolveIdHook, h, hres],
      ?_, fun hnone => Option.noConfusion hnone⟩
    intro rid hrid
    injection hrid with h2
    subst h2
    refine ⟨by simp [resolveIdHook, h, hres], by simp [resolveIdHook, h, hres], ?_⟩
    simp [resolveIdHook, h, hres]

/-- Witness for C4's amended theorem: `"vuetify/styles"` matches the entry
pattern; with a succeeding delegate the result is the sentinel id, with a
failing delegate it is `null`. -/
theorem resolveId_aggregated_spec_witness :
    (resolveIdHook StylesMode.aggregated none none "/v"
        (fun _ => some "/v/lib/a.sass") 0 "vuetify/styles" none
        { files := [], needsTouch := false, tempFiles := [],
          cycle := initCycle }).result = some voidId ∧
    (resolveIdHook StylesMode.aggregated none none "/v" (fun _ => none) 1
        "vuetify/styles" none
        { files := [], needsTouch := false, tempFiles := [],
          cycle := initCycle }).result = none :=
  ⟨((resolveId_aggregated_spec none none "/v" (fun _ => some "/v/lib/a.sass") 0
      "vuetify/styles" none
      { files := [], needsTouch := false, tempFiles := [], cycle := initCycle }
      (by decide)).2.2.1 "/v/lib/a.sass" rfl).1,
   ((resolveId_aggregated_spec none none "/v" (fun _ => none) 1
      "vuetify/styles" none
      { files := [], needsTouch := false, tempFiles := [], cycle := initCycle }
      (by decide)).2.2.2 rfl).1⟩

/-- Counterexample to claim C10 as stated: the `load` hook is not total —
on the id `"\0plugin-vuetify"` (the namespace prefix without the colon)
the `startsWith` guard fires but the anchored regexp fails, so the
non-null assertion `exec(id)![1]` throws instead of returning a result. -/
theorem loadHook_not_total_cex :
    loadHook [] "\x00plugin-vuetify" = Except.error () := by rfl

/-- Claim C10 as amended: the `load` hook returns the empty document for
any sentinel id `\0__void__` with an optional query-string decoration, and
returns `null` for every id matching neither the sentinel pattern nor the
`\0plugin-vuetify` namespace; only a namespace-prefixed id that fails the
full `\0plugin-vuetify:` pattern makes it throw. -/
theorem loadHook_spec (tempFiles : List (String × String)) (id : String) :
    (voidRegexTest id = true → loadHook tempFiles id = Except.ok (some "")) ∧
    (voidRegexTest id = false → strStartsWith id "\x00plugin-vuetify" = false →
      loadHook tempFiles id = Except.ok none) := by
  constructor
  · intro hv
    simp [loadHook, hv]
  · intro hv hns
    simp [loadHook, hv, hns]

/-- Witness for C10: the query-decorated sentinel id from the source's own
comment loads the empty document; an unrelated id, and a sentinel-prefixed
id whose query carries a line terminator (so the anchored regexp fails),
both load `null`. -/
theorem loadHook_spec_witness :
    loadHook [] "\x00__void__?v=893fa859" = Except.ok (some "") ∧
    loadHook [] "/app/src/main.ts" = Except.ok none ∧
    loadHook [] "\x00__void__?a\nb" = Except.ok none :=
  ⟨(loadHook_spec [] "\x00__void__?v=893fa859").1 (by decide),
   (loadHook_spec [] "/app/src/main.ts").2 (by decide) (by decide),
   (loadHook_spec [] "\x00__void__?a\nb").2 (by decide) (by decide)⟩

/-- Claim C2: a call to `awaitResolve` while the cycle's promise is
non-null does not create a new promise (the generation is unchanged) and
does not spawn a new driving loop; it adds its id (when given) to
`blockingModules`, attaches only its own resumption to the shared promise,
and is handed back the existing cycle's promise — so all concurrent
callers observe the same completion. -/
theorem awaitResolve_joins_active_cycle (caller : Nat) (id : Option String)
    (s : CycleState) (h : s.promiseActive = true) :
    (awaitResolveStep caller id s).1.promiseActive = true ∧
    (awaitResolveStep caller id s).1.gen = s.gen ∧
    (awaitResolveStep caller id s).1.loops = s.loops ∧
    (awaitResolveStep caller id s).2 = s.gen ∧
    (awaitResolveStep caller id s).1.reactions =
      s.reactions ++ [[Ev.resume caller]] ∧
    (∀ x : String, x ∈ (awaitResolveStep caller id s).1.blocking ↔
      some x = id ∨ x ∈ s.blocking) := by
  cases id with
  | none => simp [awaitResolveStep, h]
  | some i =>
    by_cases hb : s.blocking.contains i = true
    · have hmem : i ∈ s.blocking := by simpa using hb
      refine ⟨by simp [awaitResolveStep, h, hb], by simp [awaitResolveStep, h, hb],
        by simp [awaitResolveStep, h, hb], by simp [awaitResolveStep, h, hb],
        by simp [awaitResolveStep, h, hb], fun x => ?_⟩
      simp only [awaitResolveStep, hb, if_pos, h]
      constructor
      · intro hx
        exact Or.inr hx
      · rintro (hx | hx)
        · injection hx with h2
          rw [h2]
          exact hmem
        · exact hx
    · have hb' : s.blocking.contains i = false := by
        cases hq : s.blocking.contains i
        · rfl
        · exact absurd hq hb
      refine ⟨by simp [awaitResolveStep, h, hb'], by simp [awaitResolveStep, h, hb'],
        by simp [awaitResolveStep, h, hb'], by simp [awaitResolveStep, h, hb'],
        by simp [awaitResolveStep, h, hb'], fun x => ?_⟩
      simp only [awaitResolveStep, hb', h]
      constructor
      · intro hx
        rcases List.mem_cons.mp (by simpa using hx) with hx | hx
        · exact Or.inl (by rw [hx])
        · exact Or.inr hx
      · rintro (hx | hx)
        · injection hx with h2
          simp [← h2]
        · simp [hx]

/-- Witness for C2: after a first call creates the cycle, a second call
with an id is handed the same promise generation and spawns no new loop. -/
theorem awaitResolve_joins_active_cycle_witness :
    (awaitResolveStep 1 (some "/app/m.scss")
        (awaitResolveStep 0 none initCycle).1).2 =
      ((awaitResolveStep 0 none initCycle).1).gen ∧
    (awaitResolveStep 1 (some "/app/m.scss")
        (awaitResolveStep 0 none initCycle).1).1.loops =
      ((awaitResolveStep 0 none initCycle).1).loops :=
  ⟨(awaitResolve_joins_active_cycle 1 (some "/app/m.scss")
      (awaitResolveStep 0 none initCycle).1 rfl).2.2.2.1,
   (awaitResolve_joins_active_cycle 1 (some "/app/m.scss")
      (awaitResolveStep 0 none initCycle).1 rfl).2.2.1⟩

/-- While a cycle is active, every further call only appends its own
resumption reaction: the reactions added after the creator's are all
single `resume` events. -/
theorem runCallsFrom_reactions_of_active (calls : List (Option String)) :
    ∀ (n : Nat) (s : CycleState), s.promiseActive = true →
      ∃ tail, (runCallsFrom n calls s).reactions = s.reactions ++ tail ∧
        ∀ r ∈ tail, ∃ j, r = [Ev.resume j] := by
  induction calls with
  | nil =>
    intro n s _
    exact ⟨[], by simp [runCallsFrom], by simp⟩
  | cons c rest ih =>
    intro n s h
    have hstep : (awaitResolveStep n c s).1.reactions =
        s.reactions ++ [[Ev.resume n]] ∧
        (awaitResolveStep n c s).1.promiseActive = true := by
      cases c <;> simp [awaitResolveStep, h]
    rcases ih (n + 1) (awaitResolveStep n c s).1 hstep.2 with ⟨tail, ht, hall⟩
    refine ⟨[Ev.resume n] :: tail, ?_, ?_⟩
    · rw [runCallsFrom, ht, hstep.1, List.append_assoc]
      rfl
    · intro r hr
      rcases List.mem_cons.mp hr with h1 | h2
      · exact ⟨n, h1⟩
      · exact hall r h2

/-- Claim C1: when the shared promise resolves at the end of a settle
cycle, the reactions run FIFO — the creator's continuation, which issues
the finalizer's `writeStyles` call, runs before every waiter's resumption,
so no caller of `awaitResolve` resumes past its `await` before the write
has been issued. -/
theorem finalizer_write_before_resume (calls : List (Option String))
    (i j : Nat)
    (h : (releaseTrace (runCalls calls initCycle)).get? i =
      some (Ev.resume j)) :
    ∃ k, k < i ∧ (releaseTrace (runCalls calls initCycle)).get? k =
      some Ev.issueWrite := by
  cases calls with
  | nil => simp [runCalls, runCallsFrom, releaseTrace, initCycle] at h
  | cons c rest =>
    have hstate : (awaitResolveStep 0 c initCycle).1.reactions =
        [creatorContinuation 0] ∧
        (awaitResolveStep 0 c initCycle).1.promiseActive = true := by
      cases c <;> simp [awaitResolveStep, initCycle]
    rcases runCallsFrom_reactions_of_active rest 1 _ hstate.2 with ⟨tail, ht, _⟩
    have htrace : releaseTrace (runCalls (c :: rest) initCycle) =
        Ev.clearWatchdog :: Ev.clearBlocking :: Ev.issueWrite ::
          Ev.resume 0 :: tail.flatten := by
      show (runCallsFrom 1 rest (awaitResolveStep 0 c initCycle).1).reactions.flatten = _
      rw [ht, hstate.1]
      simp [creatorContinuation]
    rw [htrace] at h ⊢
    match i, h with
    | 0, h => simp at h
    | 1, h => simp at h
    | 2, h => simp at h
    | (n + 3), _ =>
      exact ⟨2, by omega, rfl⟩

/-- Witness for C1: with two registered callers, caller 0 resumes at trace
position 3, strictly after the write was issued at position 2. -/
theorem finalizer_write_before_resume_witness :
    (releaseTrace (runCalls [some "/app/a.scss", some "/app/b.scss"]
        initCycle)).get? 3 = some (Ev.resume 0) ∧
    ∃ k, k < 3 ∧ (releaseTrace (runCalls [some "/app/a.scss", some "/app/b.scss"]
        initCycle)).get? k = some Ev.issueWrite :=
  ⟨rfl, finalizer_write_before_resume [some "/app/a.scss", some "/app/b.scss"]
    3 0 rfl⟩

end StylesPlugin
